import Mathlib

/-!
The engine supervisor of xmrigCC, `src/App.cpp`.

`App` is the composition root of the miner: it owns the pool client
(`m_network`), drives the static worker pool (`Workers`), runs the libuv
default loop and turns console characters, termination signals and control
commands into lifecycle operations.

The embedding is explicit state passing.  A `World` is the mutable state
reachable from the single `App` instance (`App::m_self`) together with the
ordered record of the calls `App.cpp` makes into its collaborators.  The
collaborators themselves (`Workers`, `Network`, `Url`, `Options`,
`CryptoNight`, libuv) are not part of `App.cpp`; each one is described next to
its definition.
-/

namespace XmrigCC

/-! ## Constants from the system headers -/

/-- Value of `EINTR` in `<errno.h>`. -/
def EINTR : Int := 4

/-- Value of `EINVAL` in `<errno.h>`. -/
def EINVAL : Int := 22

/-- Value of `SIGHUP` in `<signal.h>`. -/
def SIGHUP : Int := 1

/-- Value of `SIGINT` in `<signal.h>`. -/
def SIGINT : Int := 2

/-- Value of `SIGTERM` in `<signal.h>`. -/
def SIGTERM : Int := 15

/-! ## Collaborators -/

/-- Modelled from the spec: `cc/ControlCommand.h` is not among the sources.  The
spec gives `ControlCommand` as a closed variant over Start, Stop, UpdateConfig,
Restart, Shutdown, Reboot and PublishConfig; the constructors carry the names
`App::onCommandReceived` switches on. -/
inductive Command
  | START
  | STOP
  | UPDATE_CONFIG
  | RESTART
  | SHUTDOWN
  | REBOOT
  | PUBLISH_CONFIG
  deriving DecidableEq, Repr

/-- Modelled from the spec: `net/Url.h` is not among the sources.  A pool endpoint
is represented by the answer of `Url::isValid()` (whether its credentials are
syntactically valid), the only thing `App.cpp` asks of it; its ordinal position
is its index in `Options.pools`. -/
structure Url where
  isValid : Bool
  deriving DecidableEq, Repr

/-- Modelled from the spec: `Options.h` is not among the sources.  The fields are
the getters `App.cpp` reads; a C string that may be null is an `Option`.  The
object is read-only after startup, so the handlers receive it as an argument
(`m_options` is assigned once, in the constructor). -/
structure Options where
  colors : Bool
  algo : Int
  aesni : Bool
  skipSelfCheck : Bool
  ccHost : Option String
  ccPort : Int
  ccRebootCmd : Option String
  pools : List Url
  threads : Nat
  affinity : Int
  priority : Int
  deriving DecidableEq, Repr

/-- Connection state of the pool client, after the states the spec lists for
JobSource; `connecting i` is an attempt in progress against endpoint `i` of the
pool list. -/
inductive NetState
  | disconnected
  | connecting (endpoint : Nat)
  | stopped
  deriving DecidableEq, Repr

/-- Modelled from the spec: `net/Network.h` is not among the sources.  The object
`m_network` points to. -/
structure Network where
  state : NetState
  deriving DecidableEq, Repr

/-- Modelled from the spec: `Network::connect` is not among the sources.  "connect()
begins the first connection attempt against the first PoolEndpoint whose
credentials are syntactically valid; if none are valid, connect() is a no-op".
The pool list is the one of the `Options` the `Network` was built from. -/
def Network.connect (pools : List Url) (n : Network) : Network :=
  match pools.findIdx? (fun u => u.isValid) with
  | some i => { n with state := NetState.connecting i }
  | none => n

/-- Modelled from the spec: `Network::stop` is not among the sources.  "stop() tears
down the active connection and suppresses further reconnect attempts". -/
def Network.stop (n : Network) : Network :=
  { n with state := NetState.stopped }

/-- Modelled from the spec: `workers/Workers.h` is not among the sources.  The
static state of the worker pool: the soft-pause flag and the number of live
execution units. -/
structure Workers where
  enabled : Bool
  active : Nat
  deriving DecidableEq, Repr

/-- Modelled from the spec: `Workers::start` is not among the sources.  "start
spawns threadCount independent execution units". -/
def Workers.start (threads : Nat) (ws : Workers) : Workers :=
  { ws with active := threads }

/-- Modelled from the spec: `Workers::stop` is not among the sources.  "stop()
signals every unit to exit and joins them": no unit is left afterwards. -/
def Workers.stop (ws : Workers) : Workers :=
  { ws with active := 0 }

/-- Modelled from the spec: `Workers::setEnabled` is not among the sources.  A soft
pause: it writes the flag and leaves the units alive. -/
def Workers.setEnabled (enabled : Bool) (ws : Workers) : Workers :=
  { ws with enabled := enabled }

/-- Modelled from the spec: `Workers::isEnabled` is not among the sources.
"isEnabled() returns the last-written value". -/
def Workers.isEnabled (ws : Workers) : Bool :=
  ws.enabled

/-- Modelled from the spec: `Workers::printHashrate` is not among the sources.
"printHashrate(bool) emits current throughput without affecting execution". -/
def Workers.printHashrate (_detail : Bool) (ws : Workers) : Workers :=
  ws

/-- The libuv default loop, as far as `App.cpp` drives it: `uv_stop` raises
`stop_flag`, `uv_run` tests it before every iteration. -/
structure Loop where
  stop_flag : Bool
  deriving DecidableEq, Repr

/-! ## Engine state -/

/-- The three signal watchers owned by `App`. -/
inductive SigHandle
  | m_sigHUP
  | m_sigINT
  | m_sigTERM
  deriving DecidableEq, Repr

/-- Severity of a log line (`LOG_INFO`, `LOG_WARN`, `LOG_ERR`). -/
inductive LogLevel
  | info
  | warn
  | err
  deriving DecidableEq, Repr

/-- A call from `App.cpp` into a collaborator, in the order it is made.  Log
lines keep their level and their text without colour codes and `printf`
arguments. -/
inductive Call
  | uv_signal_start (handle : SigHandle) (signum : Int)
  | uv_signal_stop (handle : SigHandle)
  | background
  | log (level : LogLevel) (text : String)
  | cryptoNightInit (algo : Int) (aesni : Bool)
  | memInit
  | summaryPrint
  | apiStart
  | httpdStart
  | uv_async_init
  | ccClientNew
  | workersStart (threads : Nat) (affinity : Int) (priority : Int)
  | workersStop
  | workersSetEnabled (enabled : Bool)
  | workersPrintHashrate (detail : Bool)
  | networkConnect
  | networkStop
  | uv_run
  | uv_stop
  | uv_loop_close
  | system (cmd : String)
  deriving DecidableEq, Repr

/-- The engine state: the members of the `App` instance that change after
construction, with the objects they point to, the static `Workers` state and
the default loop.  `m_httpd` and `m_ccclient` record whether the pointer is
set.  `network` is the object behind `m_network`: the constructor creates it
whenever `Options::parse` succeeds, and console, signal and command callbacks
are only registered on that path. -/
structure App where
  m_restart : Bool
  m_httpd : Bool
  m_ccclient : Bool
  network : Network
  workers : Workers
  loop : Loop
  deriving DecidableEq, Repr

/-- Engine state plus the record of collaborator calls made so far. -/
structure World where
  app : App
  calls : List Call
  deriving DecidableEq, Repr

/-- Append one call to the record. -/
def World.call (c : Call) (w : World) : World :=
  { w with calls := w.calls ++ [c] }

/-- Emit a log line. -/
def World.log (level : LogLevel) (text : String) (w : World) : World :=
  w.call (Call.log level text)

/-! ## Calls into the collaborators -/

/-- The call `m_network->stop()`. -/
def networkStop (w : World) : World :=
  { w with app := { w.app with network := w.app.network.stop } }.call Call.networkStop

/-- The call `m_network->connect()`. -/
def networkConnect (pools : List Url) (w : World) : World :=
  { w with app := { w.app with network := w.app.network.connect pools } }.call
    Call.networkConnect

/-- The call `Workers::stop()`. -/
def workersStop (w : World) : World :=
  { w with app := { w.app with workers := w.app.workers.stop } }.call Call.workersStop

/-- The call `Workers::start(threads, affinity, priority)`. -/
def workersStart (threads : Nat) (affinity priority : Int) (w : World) : World :=
  { w with app := { w.app with workers := w.app.workers.start threads } }.call
    (Call.workersStart threads affinity priority)

/-- The call `Workers::setEnabled(enabled)`. -/
def workersSetEnabled (enabled : Bool) (w : World) : World :=
  { w with app := { w.app with workers := w.app.workers.setEnabled enabled } }.call
    (Call.workersSetEnabled enabled)

/-- The call `Workers::printHashrate(detail)`. -/
def workersPrintHashrate (detail : Bool) (w : World) : World :=
  { w with app := { w.app with workers := w.app.workers.printHashrate detail } }.call
    (Call.workersPrintHashrate detail)

/-- The call `uv_stop(uv_default_loop())`: raise the loop's stop flag. -/
def uv_stop (w : World) : World :=
  { w with app := { w.app with loop := { w.app.loop with stop_flag := true } } }.call
    Call.uv_stop

/-! ## Lifecycle operations (`App.cpp` lines 245-272) -/

/-- `App::stop(bool restart)`. -/
def stop (restart : Bool) (w : World) : World :=
  let w := { w with app := { w.app with m_restart := restart } }
  let w := networkStop w
  let w := workersStop w
  uv_stop w

/-- `App::restart()`: `m_self->stop(true)`. -/
def restart (w : World) : World :=
  stop true w

/-- `App::shutdown()`: `m_self->stop(false)`. -/
def shutdown (w : World) : World :=
  stop false w

/-- `App::reboot()`: run the configured command with `system`, then shut down;
nothing happens when `ccRebootCmd()` is null. -/
def reboot (o : Options) (w : World) : World :=
  match o.ccRebootCmd with
  | some rebootCmd =>
    let w := w.call (Call.system rebootCmd)
    shutdown w
  | none => w

/-! ## Event handlers (`App.cpp` lines 208-242 and 274-321) -/

/-- `App::onConsoleCommand(char command)`; `case 3` is the character with code 3. -/
def onConsoleCommand (_o : Options) (command : Char) (w : World) : World :=
  match command with
  | 'h' | 'H' =>
    workersPrintHashrate true w
  | 'p' | 'P' =>
    if w.app.workers.isEnabled then
      let w := w.log LogLevel.info "paused, press 'r' to resume"
      workersSetEnabled false w
    else w
  | 'r' | 'R' =>
    if !w.app.workers.isEnabled then
      let w := w.log LogLevel.info "resumed"
      workersSetEnabled true w
    else w
  | 'q' | 'Q' | '\x03' =>
    let w := w.log LogLevel.info "quitting"
    shutdown w
  | _ => w

/-- `App::onSignal(uv_signal_t* handle, int signum)`. -/
def onSignal (handle : SigHandle) (signum : Int) (w : World) : World :=
  let w :=
    if signum = SIGHUP then w.log LogLevel.warn "SIGHUP received, exiting"
    else if signum = SIGTERM then w.log LogLevel.warn "SIGTERM received, exiting"
    else if signum = SIGINT then w.log LogLevel.warn "SIGINT received, exiting"
    else w
  let w := w.call (Call.uv_signal_stop handle)
  shutdown w

/-- `App::onCommandReceived(uv_async_t* async)`, on the command carried in
`async->data`.  The `UPDATE_CONFIG` label holds an empty statement and no
`break`, so control runs on into the `RESTART` label; the `PUBLISH_CONFIG`
label holds an empty statement and a `break`. -/
def onCommandReceived (o : Options) (command : Command) (w : World) : World :=
  match command with
  | Command.START => workersSetEnabled true w
  | Command.STOP => workersSetEnabled false w
  | Command.UPDATE_CONFIG => restart w
  | Command.RESTART => restart w
  | Command.SHUTDOWN => shutdown w
  | Command.REBOOT => reboot o w
  | Command.PUBLISH_CONFIG => w

/-! ## The run loop -/

/-- A callback the loop delivers to `App`: a console character, a signal on one
of the three watchers, or a wake-up of `m_async` carrying a control command. -/
inductive Event
  | console (command : Char)
  | signal (handle : SigHandle) (signum : Int)
  | command (command : Command)
  deriving DecidableEq, Repr

/-- Run the callback registered for an event. -/
def dispatch (o : Options) (e : Event) (w : World) : World :=
  match e with
  | Event.console c => onConsoleCommand o c w
  | Event.signal h signum => onSignal h signum w
  | Event.command c => onCommandReceived o c w

/-- One loop iteration: every callback that is due runs, in order. -/
def runIteration (o : Options) (events : List Event) (w : World) : World :=
  events.foldl (fun w e => dispatch o e w) w

/-- The iterations of `uv_run(loop, UV_RUN_DEFAULT)`: the loop goes on while
handles are alive (here: while iterations are left) and `stop_flag` is down. -/
def uv_runLoop (o : Options) : List (List Event) → World → World
  | [], w => w
  | events :: rest, w =>
    if w.app.loop.stop_flag then w
    else uv_runLoop o rest (runIteration o events w)

/-- The call `uv_run(uv_default_loop(), UV_RUN_DEFAULT)` as libuv documents it:
iterate, then clear `stop_flag` before returning. -/
def uv_run (o : Options) (iterations : List (List Event)) (w : World) : World :=
  let w := uv_runLoop o iterations (w.call Call.uv_run)
  { w with app := { w.app with loop := { w.app.loop with stop_flag := false } } }

/-! ## Startup (`App.cpp` lines 134-206) -/

/-- The compile-time switches `App::start` is conditional on. -/
structure Build where
  XMRIG_NO_API : Bool
  XMRIG_NO_HTTPD : Bool
  XMRIG_NO_CC : Bool
  deriving DecidableEq, Repr

/-- What `App::start` takes from outside `App.cpp`: the build switches, the
outcome of `CryptoNight::init(algo, aesni)` (initialisation and self-test), the
callbacks the loop will deliver and the value `uv_run` returns. -/
structure Env where
  build : Build
  cryptoNightInit : Int → Bool → Bool
  iterations : List (List Event)
  loopResult : Int

/-- The block under `#ifndef XMRIG_NO_API` (lines 173-175): `Api::start()`. -/
def startApi (b : Build) (w : World) : World :=
  if b.XMRIG_NO_API then w else w.call Call.apiStart

/-- The block under `#ifndef XMRIG_NO_HTTPD` (lines 177-180): create the HTTP
daemon and start it. -/
def startHttpd (b : Build) (w : World) : World :=
  if b.XMRIG_NO_HTTPD then w
  else { w with app := { w.app with m_httpd := true } }.call Call.httpdStart

/-- The block under `#ifndef XMRIG_NO_CC` (lines 182-194): when a control host
and port are configured, initialise `m_async` and create the control client,
warning if the first pool is not valid; otherwise warn that the feature is off.
The result is `none` when `pools().front()` is evaluated on an empty list. -/
def startCC (b : Build) (o : Options) (w : World) : Option World :=
  if b.XMRIG_NO_CC then some w
  else if o.ccHost.isSome && decide (o.ccPort > 0) then
    let w := w.call Call.uv_async_init
    let w := { w with app := { w.app with m_ccclient := true } }.call Call.ccClientNew
    match o.pools.head? with
    | none => none
    | some front =>
      if !front.isValid then
        some (w.log LogLevel.warn "No pool URL supplied, but CC server configured. Trying.")
      else some w
  else
    some (w.log LogLevel.warn
      "Please configure CC-Url and restart. CC feature is now deactivated.")

/-- Lines 198-200: `m_network->connect()` when the first pool of the list is
valid.  The result is `none` when the list is empty. -/
def connectFront (o : Options) (w : World) : Option World :=
  match o.pools.head? with
  | none => none
  | some front => some (if front.isValid then networkConnect o.pools w else w)

/-- Lines 202-205: run the loop, close it, and return `EINTR` when `m_restart`
is set and the loop's own result otherwise. -/
def runLoop (env : Env) (o : Options) (w : World) : Int × World :=
  let w := uv_run o env.iterations w
  let w := w.call Call.uv_loop_close
  (if w.app.m_restart then EINTR else env.loopResult, w)

/-- `App::start()`.  `m_options` is `none` when `Options::parse` returned null.
The result is `none` when `pools().front()` is evaluated on an empty pool list,
which the C++ leaves undefined; otherwise it is the returned code and the final
state. -/
def start (env : Env) (m_options : Option Options) (w : World) : Option (Int × World) :=
  match m_options with
  | none => some (EINVAL, w)
  | some o =>
    let w := w.call (Call.uv_signal_start SigHandle.m_sigHUP SIGHUP)
    let w := w.call (Call.uv_signal_start SigHandle.m_sigINT SIGINT)
    let w := w.call (Call.uv_signal_start SigHandle.m_sigTERM SIGTERM)
    let w := w.call Call.background
    let w := w.log LogLevel.info "%s hash self-test"
    let w := w.call (Call.cryptoNightInit o.algo o.aesni)
    if !env.cryptoNightInit o.algo o.aesni then
      let w := w.log LogLevel.err "%s hash self-test... failed."
      some (EINVAL, w)
    else
      let w := w.log LogLevel.info "%s hash self-test... %s."
      let w := w.call Call.memInit
      let w := w.call Call.summaryPrint
      let w := startApi env.build w
      let w := startHttpd env.build w
      match startCC env.build o w with
      | none => none
      | some w =>
        let w := workersStart o.threads o.affinity o.priority w
        match connectFront o w with
        | none => none
        | some w => some (runLoop env o w)

/-- Number of `Network::connect` calls recorded so far. -/
def connects (w : World) : Nat :=
  w.calls.count Call.networkConnect

/-- What the blocks of `App::start` before `Workers::start` keep: the restart
intent, the pool client, the worker pool and the number of connection
attempts. -/
def SameCore (v w : World) : Prop :=
  v.app.m_restart = w.app.m_restart ∧ v.app.network = w.app.network ∧
    v.app.workers = w.app.workers ∧ connects v = connects w

/-! ## Concrete states used to evaluate the code -/

/-- A running engine: two live units, enabled, connected to endpoint 0, nothing
recorded yet. -/
def runningWorld : World :=
  { app :=
      { m_restart := false, m_httpd := true, m_ccclient := true,
        network := { state := NetState.connecting 0 },
        workers := { enabled := true, active := 2 },
        loop := { stop_flag := false } },
    calls := [] }

/-- A configuration with one valid pool and a reboot command. -/
def sampleOptions : Options :=
  { colors := false, algo := 0, aesni := true, skipSelfCheck := false,
    ccHost := some "cc.example", ccPort := 3344, ccRebootCmd := some "reboot",
    pools := [{ isValid := true }], threads := 2, affinity := -1, priority := 2 }

/-- The running engine after a soft pause. -/
def pausedWorld : World :=
  { runningWorld with
    app := { runningWorld.app with workers := { enabled := false, active := 2 } } }

/-- The sample configuration without a reboot command. -/
def noRebootOptions : Options :=
  { sampleOptions with ccRebootCmd := none }

/-- A freshly constructed engine before `App::start`: `m_restart(false)`, no
HTTP daemon, no control client, pool client not connected, no worker unit. -/
def idleWorld : World :=
  { app :=
      { m_restart := false, m_httpd := false, m_ccclient := false,
        network := { state := NetState.disconnected },
        workers := { enabled := true, active := 0 },
        loop := { stop_flag := false } },
    calls := [] }

/-- The sample configuration with an invalid first pool followed by a valid one. -/
def secondPoolOptions : Options :=
  { sampleOptions with pools := [{ isValid := false }, { isValid := true }] }

/-- A full build, a passing self-test, a loop that delivers nothing and returns 0. -/
def quietEnv : Env :=
  { build := { XMRIG_NO_API := false, XMRIG_NO_HTTPD := false, XMRIG_NO_CC := false },
    cryptoNightInit := fun _ _ => true,
    iterations := [],
    loopResult := 0 }

/-- A loop that delivers the Restart command and reports live handles. -/
def restartEnv : Env :=
  { quietEnv with iterations := [[Event.command Command.RESTART]], loopResult := 1 }

/-- A loop that delivers `SIGINT` and reports live handles. -/
def interruptEnv : Env :=
  { quietEnv with
    iterations := [[Event.signal SigHandle.m_sigINT SIGINT]], loopResult := 1 }

/-- The quiet environment with a failing self-test. -/
def failingEnv : Env :=
  { quietEnv with cryptoNightInit := fun _ _ => false }

/-! ## Theorems -/

section Basic

@[simp]
theorem call_app (c : Call) (w : World) : (w.call c).app = w.app := rfl

@[simp]
theorem call_calls (c : Call) (w : World) : (w.call c).calls = w.calls ++ [c] := rfl

@[simp]
theorem log_app (l : LogLevel) (t : String) (w : World) : (w.log l t).app = w.app := rfl

@[simp]
theorem log_calls (l : LogLevel) (t : String) (w : World) :
    (w.log l t).calls = w.calls ++ [Call.log l t] := rfl

theorem stop_app (restart : Bool) (w : World) :
    (stop restart w).app =
      { w.app with
        m_restart := restart
        network := w.app.network.stop
        workers := w.app.workers.stop
        loop := { w.app.loop with stop_flag := true } } := rfl

theorem stop_calls (restart : Bool) (w : World) :
    (stop restart w).calls =
      w.calls ++ [Call.networkStop, Call.workersStop, Call.uv_stop] := by
  simp [stop, networkStop, workersStop, uv_stop]

end Basic

/-- C1: for every engine state and every `restart`, `App::stop(restart)` calls
`Network::stop`, then `Workers::stop`, then `uv_stop` (and nothing else), and
afterwards the restart intent equals `restart`, the pool client is stopped, no
worker unit is left and the loop's stop flag is raised. -/
theorem stop_effects (w : World) (restart : Bool) :
    (stop restart w).calls =
        w.calls ++ [Call.networkStop, Call.workersStop, Call.uv_stop] ∧
      (stop restart w).app.m_restart = restart ∧
      (stop restart w).app.network.state = NetState.stopped ∧
      (stop restart w).app.workers.active = 0 ∧
      (stop restart w).app.loop.stop_flag = true :=
  ⟨stop_calls restart w, rfl, rfl, rfl, rfl⟩

section Commands

theorem runIteration_append (o : Options) (es fs : List Event) (w : World) :
    runIteration o (es ++ fs) w = runIteration o fs (runIteration o es w) := by
  simp [runIteration, List.foldl_append]

theorem runIteration_single (o : Options) (e : Event) (w : World) :
    runIteration o [e] w = dispatch o e w := rfl

end Commands

/-- C3: from every engine state the Restart command leaves the restart intent
true and the Shutdown command leaves it false; after any non-empty sequence of
Restart and Shutdown commands delivered in order, the restart intent is true
exactly when the last command of the sequence is Restart. -/
theorem restart_shutdown_last_wins (o : Options) (w : World) :
    (onCommandReceived o Command.RESTART w).app.m_restart = true ∧
      (onCommandReceived o Command.SHUTDOWN w).app.m_restart = false ∧
      ∀ (cs : List Command) (hne : cs ≠ []),
        (∀ c ∈ cs, c = Command.RESTART ∨ c = Command.SHUTDOWN) →
        (runIteration o (cs.map Event.command) w).app.m_restart =
          decide (cs.getLast hne = Command.RESTART) := by
  refine ⟨rfl, rfl, ?_⟩
  intro cs hne hcs
  have hsplit : cs = cs.dropLast ++ [cs.getLast hne] :=
    (List.dropLast_append_getLast hne).symm
  have hlast := hcs (cs.getLast hne) (List.getLast_mem hne)
  generalize cs.getLast hne = last at hsplit hlast
  rw [hsplit, List.map_append, runIteration_append, List.map_singleton,
    runIteration_single]
  rcases hlast with h | h <;> subst h <;> rfl

/-- Witness for C3: Restart followed by Shutdown ends with the intent false. -/
theorem restart_shutdown_last_wins_witness :
    (runIteration sampleOptions
        ([Command.RESTART, Command.SHUTDOWN].map Event.command) runningWorld).app.m_restart =
      decide (([Command.RESTART, Command.SHUTDOWN] : List Command).getLast (by simp) =
        Command.RESTART) :=
  (restart_shutdown_last_wins sampleOptions runningWorld).2.2
    [Command.RESTART, Command.SHUTDOWN] (by simp) (by simp)

/-- C4, as stated, fails: after `stop(false)`, a second call `stop(true)` changes
the engine state, turning the recorded restart intent from false to true. -/
theorem second_stop_overwrites_intent :
    (stop true (stop false runningWorld)).app ≠ (stop false runningWorld).app ∧
      (stop false runningWorld).app.m_restart = false ∧
      (stop true (stop false runningWorld)).app.m_restart = true := by
  refine ⟨?_, rfl, rfl⟩
  intro h
  have h2 := congrArg App.m_restart h
  simp [stop_app] at h2

/-- C4, amended: a second call `stop(r2)` after `stop(r1)` changes nothing in
the engine state but the recorded restart intent, which becomes `r2`; the
result is the engine state `stop(r2)` alone would give, and with the same
argument the second call leaves the engine state as it was. -/
theorem stop_after_stop (w : World) (r1 r2 : Bool) :
    (stop r2 (stop r1 w)).app = { (stop r1 w).app with m_restart := r2 } ∧
      (stop r2 (stop r1 w)).app = (stop r2 w).app ∧
      (stop r1 (stop r1 w)).app = (stop r1 w).app := by
  refine ⟨rfl, rfl, rfl⟩

/-- C5, as stated, fails: UpdateConfig is not inert.  Delivered to a running
engine it stops the pool client and the workers, raises the loop's stop flag and
sets the restart intent. -/
theorem update_config_not_inert :
    (onCommandReceived sampleOptions Command.UPDATE_CONFIG runningWorld).app ≠
        runningWorld.app ∧
      (onCommandReceived sampleOptions Command.UPDATE_CONFIG runningWorld).app.m_restart =
        true ∧
      (onCommandReceived sampleOptions Command.UPDATE_CONFIG runningWorld).calls =
        [Call.networkStop, Call.workersStop, Call.uv_stop] := by
  refine ⟨?_, rfl, rfl⟩
  intro h
  have h2 := congrArg App.m_restart h
  simp [onCommandReceived, restart, stop_app, runningWorld] at h2

/-- C5, amended: PublishConfig is accepted and inert, it leaves the engine state
and the call record as they were; UpdateConfig is handled exactly as Restart,
that is as `stop(true)`. -/
theorem publish_config_inert (o : Options) (w : World) :
    onCommandReceived o Command.PUBLISH_CONFIG w = w ∧
      onCommandReceived o Command.UPDATE_CONFIG w =
        onCommandReceived o Command.RESTART w ∧
      onCommandReceived o Command.UPDATE_CONFIG w = stop true w :=
  ⟨rfl, rfl, rfl⟩

/-- C6: the Start command sets the worker pool's enabled flag and the Stop
command clears it, through one call of `Workers::setEnabled`, leaving the rest
of the engine state as it was; when the flag already has the target value the
engine state is unchanged. -/
theorem start_stop_commands (o : Options) (w : World) :
    (onCommandReceived o Command.START w).app =
        { w.app with workers := { w.app.workers with enabled := true } } ∧
      (onCommandReceived o Command.STOP w).app =
        { w.app with workers := { w.app.workers with enabled := false } } ∧
      (onCommandReceived o Command.START w).calls =
        w.calls ++ [Call.workersSetEnabled true] ∧
      (onCommandReceived o Command.STOP w).calls =
        w.calls ++ [Call.workersSetEnabled false] ∧
      (w.app.workers.enabled = true → (onCommandReceived o Command.START w).app = w.app) ∧
      (w.app.workers.enabled = false → (onCommandReceived o Command.STOP w).app = w.app) := by
  refine ⟨rfl, rfl, rfl, rfl, ?_, ?_⟩
  · intro h
    show ({ w.app with workers := { w.app.workers with enabled := true } } : App) = w.app
    rw [← h]
  · intro h
    show ({ w.app with workers := { w.app.workers with enabled := false } } : App) = w.app
    rw [← h]

/-- Witness for C6: Start delivered to an engine that is already enabled, Stop
delivered to one that is already paused. -/
theorem start_stop_commands_witness :
    (runningWorld.app.workers.enabled = true ∧
        (onCommandReceived sampleOptions Command.START runningWorld).app =
          runningWorld.app) ∧
      (pausedWorld.app.workers.enabled = false ∧
        (onCommandReceived sampleOptions Command.STOP pausedWorld).app = pausedWorld.app) :=
  ⟨⟨rfl, (start_stop_commands sampleOptions runningWorld).2.2.2.2.1 rfl⟩,
    ⟨rfl, (start_stop_commands sampleOptions pausedWorld).2.2.2.2.2 rfl⟩⟩

/-- C7: with a reboot command configured, `App::reboot` runs it once through
`system` and then shuts down without restart (`stop(false)`); with none
configured it changes nothing and calls nothing.  The Reboot control command is
`App::reboot`. -/
theorem reboot_effects (o : Options) (w : World) :
    (∀ cmd, o.ccRebootCmd = some cmd →
        (reboot o w).calls =
            w.calls ++ [Call.system cmd, Call.networkStop, Call.workersStop, Call.uv_stop] ∧
          (reboot o w).app = (stop false w).app ∧
          (reboot o w).app.m_restart = false ∧
          (reboot o w).app.network.state = NetState.stopped ∧
          (reboot o w).app.workers.active = 0 ∧
          (reboot o w).app.loop.stop_flag = true) ∧
      (o.ccRebootCmd = none → reboot o w = w) ∧
      onCommandReceived o Command.REBOOT w = reboot o w := by
  refine ⟨?_, ?_, rfl⟩
  · intro cmd h
    have hr : reboot o w = stop false (w.call (Call.system cmd)) := by
      simp [reboot, h, shutdown]
    rw [hr]
    refine ⟨?_, rfl, rfl, rfl, rfl, rfl⟩
    simp [stop_calls]
  · intro h
    simp [reboot, h]

/-- Witness for C7: the sample configuration has the reboot command `reboot`;
the same configuration without it makes `App::reboot` do nothing. -/
theorem reboot_effects_witness :
    (sampleOptions.ccRebootCmd = some "reboot" ∧
        (reboot sampleOptions runningWorld).calls =
          runningWorld.calls ++
            [Call.system "reboot", Call.networkStop, Call.workersStop, Call.uv_stop]) ∧
      (noRebootOptions.ccRebootCmd = none ∧ reboot noRebootOptions runningWorld = runningWorld) :=
  ⟨⟨rfl, ((reboot_effects sampleOptions runningWorld).1 "reboot" rfl).1⟩,
    ⟨rfl, (reboot_effects noRebootOptions runningWorld).2.1 rfl⟩⟩

section Console

theorem onConsoleCommand_other (o : Options) (c : Char) (w : World)
    (h : c ∉ ['h', 'H', 'p', 'P', 'r', 'R', 'q', 'Q', '\x03']) :
    onConsoleCommand o c w = w := by
  simp only [List.mem_cons, List.mem_singleton, List.not_mem_nil, or_false, not_or] at h
  obtain ⟨h1, h2, h3, h4, h5, h6, h7, h8, h9⟩ := h
  unfold onConsoleCommand
  split <;> first | rfl | contradiction

theorem setEnabled_app_of_eq (b : Bool) (w : World) (h : w.app.workers.enabled = b) :
    (workersSetEnabled b w).app = w.app := by
  show ({ w.app with workers := { w.app.workers with enabled := b } } : App) = w.app
  rw [← h]

end Console

/-- C9: console input and signals resolve to the operations of the control
commands.  The quit characters `q`, `Q` and code 3, and every signal delivered
to `App::onSignal` on any watcher, give the engine state of the Shutdown
command, which is that of `stop(false)`; `p` and `P` give the engine state of
the Stop command, `r` and `R` that of the Start command; `h`, `H` leave the
engine state as it was, and any other character leaves everything as it was. -/
theorem console_and_signals_resolve (o : Options) (w : World) :
    (onCommandReceived o Command.SHUTDOWN w).app = (stop false w).app ∧
      (onConsoleCommand o 'q' w).app = (onCommandReceived o Command.SHUTDOWN w).app ∧
      (onConsoleCommand o 'Q' w).app = (onCommandReceived o Command.SHUTDOWN w).app ∧
      (onConsoleCommand o '\x03' w).app = (onCommandReceived o Command.SHUTDOWN w).app ∧
      (∀ (handle : SigHandle) (signum : Int),
        (onSignal handle signum w).app = (onCommandReceived o Command.SHUTDOWN w).app) ∧
      (onConsoleCommand o 'p' w).app = (onCommandReceived o Command.STOP w).app ∧
      (onConsoleCommand o 'P' w).app = (onCommandReceived o Command.STOP w).app ∧
      (onConsoleCommand o 'r' w).app = (onCommandReceived o Command.START w).app ∧
      (onConsoleCommand o 'R' w).app = (onCommandReceived o Command.START w).app ∧
      (onConsoleCommand o 'h' w).app = w.app ∧
      (onConsoleCommand o 'H' w).app = w.app ∧
      (∀ c : Char, c ∉ ['h', 'H', 'p', 'P', 'r', 'R', 'q', 'Q', '\x03'] →
        onConsoleCommand o c w = w) := by
  have hpause : ∀ v : World,
      (if v.app.workers.isEnabled then
          workersSetEnabled false (v.log LogLevel.info "paused, press 'r' to resume")
        else v).app = (workersSetEnabled false v).app := by
    intro v
    cases h : v.app.workers.enabled
    · simp [Workers.isEnabled, h, setEnabled_app_of_eq false v h]
    · simp [Workers.isEnabled, h]; rfl
  have hresume : ∀ v : World,
      (if !v.app.workers.isEnabled then
          workersSetEnabled true (v.log LogLevel.info "resumed")
        else v).app = (workersSetEnabled true v).app := by
    intro v
    cases h : v.app.workers.enabled
    · simp [Workers.isEnabled, h]; rfl
    · simp [Workers.isEnabled, h, setEnabled_app_of_eq true v h]
  refine ⟨rfl, rfl, rfl, rfl, ?_, hpause w, hpause w, hresume w, hresume w, rfl, rfl, ?_⟩
  · intro handle signum
    unfold onSignal
    split_ifs <;> rfl
  · intro c hc
    exact onConsoleCommand_other o c w hc

/-- Witness for C9: the character `x` is not a console command. -/
theorem console_and_signals_resolve_witness :
    'x' ∉ ['h', 'H', 'p', 'P', 'r', 'R', 'q', 'Q', '\x03'] ∧
      onConsoleCommand sampleOptions 'x' runningWorld = runningWorld :=
  ⟨by decide,
    (console_and_signals_resolve sampleOptions runningWorld).2.2.2.2.2.2.2.2.2.2.2 'x'
      (by decide)⟩

/-- C8: fatal startup errors abort before any activity.  With no configuration
`App::start` returns `EINVAL` at once, calling nothing; with a failing
`CryptoNight::init` it returns `EINVAL` after arming the signal watchers,
`background()`, the self-test and two log lines.  In both cases the engine state
is untouched, so no worker is started, no connection begun, no control client
created and the loop not entered. -/
theorem start_fatal_errors (env : Env) (w : World) :
    start env none w = some (EINVAL, w) ∧
      ∀ o : Options, env.cryptoNightInit o.algo o.aesni = false →
        ∃ w', start env (some o) w = some (EINVAL, w') ∧
          w'.app = w.app ∧
          w'.calls = w.calls ++
            [Call.uv_signal_start SigHandle.m_sigHUP SIGHUP,
              Call.uv_signal_start SigHandle.m_sigINT SIGINT,
              Call.uv_signal_start SigHandle.m_sigTERM SIGTERM,
              Call.background,
              Call.log LogLevel.info "%s hash self-test",
              Call.cryptoNightInit o.algo o.aesni,
              Call.log LogLevel.err "%s hash self-test... failed."] ∧
          (∀ t a p, Call.workersStart t a p ∉ w'.calls.drop w.calls.length) ∧
          Call.networkConnect ∉ w'.calls.drop w.calls.length ∧
          Call.ccClientNew ∉ w'.calls.drop w.calls.length ∧
          Call.uv_run ∉ w'.calls.drop w.calls.length := by
  refine ⟨rfl, ?_⟩
  intro o h
  have key : start env (some o) w = some (EINVAL,
      ((((((w.call (Call.uv_signal_start SigHandle.m_sigHUP SIGHUP)).call
        (Call.uv_signal_start SigHandle.m_sigINT SIGINT)).call
        (Call.uv_signal_start SigHandle.m_sigTERM SIGTERM)).call
        Call.background).log LogLevel.info "%s hash self-test").call
        (Call.cryptoNightInit o.algo o.aesni)).log LogLevel.err
        "%s hash self-test... failed.") := by
    simp only [start, h]
    rfl
  refine ⟨_, key, rfl, by simp, ?_, ?_, ?_, ?_⟩ <;> simp

/-- Witness for C8: the failing environment rejects the sample configuration. -/
theorem start_fatal_errors_witness :
    failingEnv.cryptoNightInit sampleOptions.algo sampleOptions.aesni = false ∧
      ∃ w', start failingEnv (some sampleOptions) idleWorld = some (EINVAL, w') ∧
        w'.app = idleWorld.app :=
  ⟨rfl,
    let ⟨w', h1, h2, _⟩ := (start_fatal_errors failingEnv idleWorld).2 sampleOptions rfl
    ⟨w', h1, h2⟩⟩

section Startup

theorem SameCore.refl (w : World) : SameCore w w := ⟨rfl, rfl, rfl, rfl⟩

theorem SameCore.trans {u v w : World} (h1 : SameCore u v) (h2 : SameCore v w) :
    SameCore u w :=
  ⟨h1.1.trans h2.1, h1.2.1.trans h2.2.1, h1.2.2.1.trans h2.2.2.1, h1.2.2.2.trans h2.2.2.2⟩

theorem sameCore_call (c : Call) (w : World) (hc : c ≠ Call.networkConnect) :
    SameCore (w.call c) w := by
  refine ⟨rfl, rfl, rfl, ?_⟩
  simp [connects, List.count_append, List.count_cons, hc]

theorem sameCore_log (l : LogLevel) (t : String) (w : World) : SameCore (w.log l t) w :=
  sameCore_call _ w (by simp)

theorem sameCore_startApi (b : Build) (w : World) : SameCore (startApi b w) w := by
  unfold startApi
  split_ifs
  · exact SameCore.refl w
  · exact sameCore_call _ w (by simp)

theorem sameCore_startHttpd (b : Build) (w : World) : SameCore (startHttpd b w) w := by
  unfold startHttpd
  split_ifs
  · exact SameCore.refl w
  · refine ⟨rfl, rfl, rfl, ?_⟩
    simp [connects, List.count_append, List.count_cons]

theorem startCC_some (b : Build) (o : Options) (w : World) (front : Url) (rest : List Url)
    (hp : o.pools = front :: rest) :
    ∃ v, startCC b o w = some v ∧ SameCore v w := by
  unfold startCC
  simp only [hp, List.head?_cons]
  split_ifs
  · exact ⟨_, rfl, SameCore.refl w⟩
  · refine ⟨_, rfl, ?_⟩
    refine (sameCore_log _ _ _).trans ?_
    refine ⟨rfl, rfl, rfl, ?_⟩
    simp [connects, List.count_append, List.count_cons]
  · refine ⟨_, rfl, ?_⟩
    refine ⟨rfl, rfl, rfl, ?_⟩
    simp [connects, List.count_append, List.count_cons]
  · exact ⟨_, rfl, sameCore_log _ _ _⟩

/-- The state in which `App::start` calls `uv_run`, for a configuration that
passes the self-test and has a first pool. -/
theorem start_reaches_loop (env : Env) (o : Options) (w : World) (front : Url)
    (rest : List Url) (hinit : env.cryptoNightInit o.algo o.aesni = true)
    (hp : o.pools = front :: rest) :
    ∃ v, SameCore v w ∧
      start env (some o) w =
        some (runLoop env o
          (if front.isValid then
            networkConnect o.pools (workersStart o.threads o.affinity o.priority v)
          else workersStart o.threads o.affinity o.priority v)) := by
  obtain ⟨v, hv, hcore⟩ := startCC_some env.build o
    (startHttpd env.build (startApi env.build
      (((((((((w.call (Call.uv_signal_start SigHandle.m_sigHUP SIGHUP)).call
        (Call.uv_signal_start SigHandle.m_sigINT SIGINT)).call
        (Call.uv_signal_start SigHandle.m_sigTERM SIGTERM)).call
        Call.background).log LogLevel.info "%s hash self-test").call
        (Call.cryptoNightInit o.algo o.aesni)).log LogLevel.info
        "%s hash self-test... %s.").call Call.memInit).call Call.summaryPrint)))
    front rest hp
  refine ⟨v, ?_, ?_⟩
  · refine hcore.trans ((sameCore_startHttpd _ _).trans ((sameCore_startApi _ _).trans ?_))
    refine ⟨rfl, rfl, rfl, ?_⟩
    simp [connects, List.count_append, List.count_cons]
  · simp only [start, hinit, connectFront, hp, List.head?_cons]
    simp only [Bool.not_true, Bool.false_eq_true, if_false]
    rw [hv]

end Startup

section RunLoop

theorem stop_connects (restart : Bool) (w : World) : connects (stop restart w) = connects w := by
  simp [connects, stop_calls, List.count_append, List.count_cons]

theorem setEnabled_connects (b : Bool) (w : World) :
    connects (workersSetEnabled b w) = connects w := by
  simp [connects, workersSetEnabled, List.count_append, List.count_cons]

theorem call_connects (c : Call) (w : World) (hc : c ≠ Call.networkConnect) :
    connects (w.call c) = connects w :=
  (sameCore_call c w hc).2.2.2

theorem onConsoleCommand_connects (o : Options) (c : Char) (w : World) :
    connects (onConsoleCommand o c w) = connects w := by
  unfold onConsoleCommand
  split
  · exact call_connects _ _ (by simp)
  · exact call_connects _ _ (by simp)
  · split_ifs
    · rw [setEnabled_connects]; exact call_connects _ _ (by simp)
    · rfl
  · split_ifs
    · rw [setEnabled_connects]; exact call_connects _ _ (by simp)
    · rfl
  · split_ifs
    · rw [setEnabled_connects]; exact call_connects _ _ (by simp)
    · rfl
  · split_ifs
    · rw [setEnabled_connects]; exact call_connects _ _ (by simp)
    · rfl
  · show connects (stop false _) = _
    rw [stop_connects]; exact call_connects _ _ (by simp)
  · show connects (stop false _) = _
    rw [stop_connects]; exact call_connects _ _ (by simp)
  · show connects (stop false _) = _
    rw [stop_connects]; exact call_connects _ _ (by simp)
  · rfl

theorem onSignal_connects (handle : SigHandle) (signum : Int) (w : World) :
    connects (onSignal handle signum w) = connects w := by
  unfold onSignal
  show connects (stop false _) = _
  rw [stop_connects, call_connects _ _ (by simp)]
  split_ifs <;> first | rfl | exact call_connects _ _ (by simp)

theorem onCommandReceived_connects (o : Options) (c : Command) (w : World) :
    connects (onCommandReceived o c w) = connects w := by
  cases c
  · exact setEnabled_connects true w
  · exact setEnabled_connects false w
  · exact stop_connects true w
  · exact stop_connects true w
  · exact stop_connects false w
  · show connects (reboot o w) = _
    unfold reboot
    split
    · show connects (stop false _) = _
      rw [stop_connects]; exact call_connects _ _ (by simp)
    · rfl
  · rfl

theorem dispatch_connects (o : Options) (e : Event) (w : World) :
    connects (dispatch o e w) = connects w := by
  cases e
  · exact onConsoleCommand_connects o _ w
  · exact onSignal_connects _ _ w
  · exact onCommandReceived_connects o _ w

theorem runIteration_connects (o : Options) (events : List Event) (w : World) :
    connects (runIteration o events w) = connects w := by
  induction events generalizing w with
  | nil => rfl
  | cons e es ih =>
    show connects (runIteration o es (dispatch o e w)) = _
    rw [ih, dispatch_connects]

theorem uv_runLoop_connects (o : Options) (iterations : List (List Event)) (w : World) :
    connects (uv_runLoop o iterations w) = connects w := by
  induction iterations generalizing w with
  | nil => rfl
  | cons events rest ih =>
    unfold uv_runLoop
    split_ifs
    · rfl
    · rw [ih, runIteration_connects]

theorem runLoop_connects (env : Env) (o : Options) (w : World) :
    connects (runLoop env o w).2 = connects w := by
  show connects ((uv_run o env.iterations w).call Call.uv_loop_close) = _
  rw [call_connects _ _ (by simp)]
  show connects (uv_runLoop o env.iterations (w.call Call.uv_run)) = _
  rw [uv_runLoop_connects, call_connects _ _ (by simp)]

theorem connect_front_valid (front : Url) (rest : List Url) (n : Network)
    (h : front.isValid = true) :
    n.connect (front :: rest) = { state := NetState.connecting 0 } := by
  simp [Network.connect, List.findIdx?_cons, h]

end RunLoop

/-- C2: every run of `App::start` that reaches the run loop (a configuration is
present, the self-test passes, the pool list has a first entry) returns; the
startup leaves the restart intent as it found it, and the value returned is
`EINTR` when the restart intent is set when `uv_run` returns and the loop's own
result otherwise. -/
theorem start_returns_restart_intent (env : Env) (o : Options) (w : World)
    (hinit : env.cryptoNightInit o.algo o.aesni = true) (hp : o.pools ≠ []) :
    ∃ entry, entry.app.m_restart = w.app.m_restart ∧
      start env (some o) w =
        some (if (uv_run o env.iterations entry).app.m_restart then EINTR else env.loopResult,
          (uv_run o env.iterations entry).call Call.uv_loop_close) := by
  obtain ⟨front, rest, hfr⟩ := List.exists_cons_of_ne_nil hp
  obtain ⟨v, hcore, hstart⟩ := start_reaches_loop env o w front rest hinit hfr
  refine ⟨_, ?_, hstart⟩
  rw [← hcore.1]
  split_ifs <;> rfl

/-- Witness for C2: the sample configuration in the quiet environment reaches
the loop and, nothing having asked for a restart, returns the loop's result. -/
theorem start_returns_restart_intent_witness :
    (quietEnv.cryptoNightInit sampleOptions.algo sampleOptions.aesni = true ∧
        sampleOptions.pools ≠ []) ∧
      ∃ entry, entry.app.m_restart = idleWorld.app.m_restart ∧
        start quietEnv (some sampleOptions) idleWorld =
          some (if (uv_run sampleOptions quietEnv.iterations entry).app.m_restart then EINTR
              else quietEnv.loopResult,
            (uv_run sampleOptions quietEnv.iterations entry).call Call.uv_loop_close) :=
  ⟨⟨rfl, by simp [sampleOptions]⟩,
    start_returns_restart_intent quietEnv sampleOptions idleWorld rfl (by simp [sampleOptions])⟩

section Runs

/-- A run ended by the Restart command returns `EINTR`. -/
theorem start_restart_run :
    (start restartEnv (some sampleOptions) idleWorld).map Prod.fst = some EINTR := by
  decide

/-- A run ended by `SIGINT` returns the loop's own result. -/
theorem start_interrupt_run :
    (start interruptEnv (some sampleOptions) idleWorld).map Prod.fst =
      some interruptEnv.loopResult := by
  decide

end Runs

/-- C10, as stated, fails: with the pool list `[invalid, valid]` the list holds
a valid endpoint, the self-test passes, and `App::start` starts the workers but
never calls `Network::connect`; the pool client stays disconnected. -/
theorem connect_skipped_with_valid_second_pool :
    (∃ u ∈ secondPoolOptions.pools, u.isValid = true) ∧
      quietEnv.cryptoNightInit secondPoolOptions.algo secondPoolOptions.aesni = true ∧
      ∃ code w', start quietEnv (some secondPoolOptions) idleWorld = some (code, w') ∧
        Call.networkConnect ∉ w'.calls ∧
        w'.app.network.state = NetState.disconnected ∧
        w'.app.workers.active = 2 := by
  refine ⟨by decide, rfl, ?_⟩
  refine ⟨_, _, rfl, ?_, rfl, rfl⟩
  decide

/-- C10, amended: once the self-test has passed, `App::start` starts the workers
and then calls `Network::connect` exactly when the first endpoint of the pool
list is valid, which begins an attempt against that endpoint; when the first
one is not valid no connection attempt is made during the whole run and the
pool client enters the loop as `App::start` found it, whatever the rest of the
list holds. -/
theorem connect_iff_first_pool_valid (env : Env) (o : Options) (w : World) (front : Url)
    (rest : List Url) (hinit : env.cryptoNightInit o.algo o.aesni = true)
    (hp : o.pools = front :: rest) :
    ∃ entry, start env (some o) w = some (runLoop env o entry) ∧
      entry.app.workers.active = o.threads ∧
      entry.app.network =
        (if front.isValid then { state := NetState.connecting 0 } else w.app.network) ∧
      connects entry = connects w + (if front.isValid then 1 else 0) ∧
      connects (runLoop env o entry).2 = connects w + (if front.isValid then 1 else 0) := by
  obtain ⟨v, hcore, hstart⟩ := start_reaches_loop env o w front rest hinit hp
  refine ⟨_, hstart, ?_⟩
  rw [runLoop_connects]
  cases hval : front.isValid
  · simp only [Bool.false_eq_true, if_false, Nat.add_zero]
    refine ⟨rfl, hcore.2.1, ?_, ?_⟩ <;>
      · rw [← hcore.2.2.2]
        simp [connects, workersStart, List.count_append, List.count_cons]
  · simp only [if_true]
    refine ⟨rfl, ?_, ?_, ?_⟩
    · show v.app.network.connect o.pools = _
      rw [hp, connect_front_valid front rest _ hval]
    · rw [← hcore.2.2.2]
      simp [connects, networkConnect, workersStart, List.count_append, List.count_cons]
    · rw [← hcore.2.2.2]
      simp [connects, networkConnect, workersStart, List.count_append, List.count_cons]

/-- Witness for C10: the sample configuration, whose first pool is valid. -/
theorem connect_iff_first_pool_valid_witness :
    (quietEnv.cryptoNightInit sampleOptions.algo sampleOptions.aesni = true ∧
        sampleOptions.pools = [{ isValid := true }]) ∧
      ∃ entry, start quietEnv (some sampleOptions) idleWorld =
          some (runLoop quietEnv sampleOptions entry) ∧
        entry.app.workers.active = sampleOptions.threads ∧
        entry.app.network = { state := NetState.connecting 0 } ∧
        connects entry = connects idleWorld + 1 ∧
        connects (runLoop quietEnv sampleOptions entry).2 = connects idleWorld + 1 :=
  ⟨⟨rfl, rfl⟩,
    connect_iff_first_pool_valid quietEnv sampleOptions idleWorld { isValid := true } [] rfl rfl⟩

end XmrigCC
